import Mathlib

/-!
Verification of the WeChat unified-order module (`dev/makeOrder.go`).

The Go source is embedded shallowly: `Params` (the `map[string]interface{}`
whose values are strings in this module) becomes an association list,
`unifiedResult` a structure of strings, and the stateful `UnifiedOrder`
flow a pure function that also returns the final state of the caller's
parameter map.  Helpers that live outside the embedded file
(`pkg/util`, `pkg/e`, `Params` methods) are modelled from the spec and
marked as such in their doc comments.
-/

deriving instance DecidableEq for Except

namespace WechatSDK

/-- The parameter map `Params` (`map[string]interface{}` in Go); every value
used by this module is a string, so it is embedded as an association list
from field name to string value. -/
abbrev Params := List (String × String)

/-- Modelled from the spec: `Params.Get` returns the value stored under a key,
or an absence indicator; `pkg` code is not under `src/`. -/
def Params.get? (p : Params) (k : String) : Option String :=
  (p.find? (fun kv => kv.1 == k)).map (·.2)

/-- Modelled from the spec: `Params.Add` inserts or overwrites the entry for a
key (Go map assignment); `pkg` code is not under `src/`. -/
def Params.add (p : Params) (k v : String) : Params :=
  p.filter (fun kv => kv.1 != k) ++ [(k, v)]

/-- Lexicographic order on character lists by code point (on UTF-8 data this
coincides with byte-lexicographic order). -/
def lexLe : List Char → List Char → Bool
  | [], _ => true
  | _ :: _, [] => false
  | a :: as, b :: bs =>
    if a < b then true
    else if b < a then false
    else lexLe as bs

/-- Byte-lexicographic comparison of field names. -/
def strLe (a b : String) : Bool :=
  lexLe a.data b.data

/-- The ordering relation used to sort keys. -/
def keyLe (a b : String) : Prop :=
  strLe a b = true

instance : DecidableRel keyLe := fun a b => by
  unfold keyLe; infer_instance

/-- Modelled from the spec: `Params.SortKey` returns the keys of all fields
whose value is non-empty, sorted byte-lexicographically; `pkg` code is not
under `src/`. -/
def Params.SortKey (p : Params) : List String :=
  List.insertionSort keyLe ((p.filter (fun kv => kv.2 != "")).map (·.1))

theorem lexLe_refl (l : List Char) : lexLe l l = true := by
  induction l with
  | nil => rfl
  | cons a as ih => simp [lexLe, ih]

theorem lexLe_total (a b : List Char) : lexLe a b = true ∨ lexLe b a = true := by
  induction a generalizing b with
  | nil => left; rfl
  | cons x xs ih =>
    cases b with
    | nil => right; rfl
    | cons y ys =>
      rcases lt_trichotomy x y with h | h | h
      · left; simp [lexLe, h]
      · subst h
        rcases ih ys with h' | h'
        · left; simp [lexLe, h']
        · right; simp [lexLe, h']
      · right; simp [lexLe, h]

theorem lexLe_trans {a b c : List Char} (h1 : lexLe a b = true)
    (h2 : lexLe b c = true) : lexLe a c = true := by
  induction a generalizing b c with
  | nil => rfl
  | cons x xs ih =>
    cases b with
    | nil => simp [lexLe] at h1
    | cons y ys =>
      cases c with
      | nil => simp [lexLe] at h2
      | cons z zs =>
        rcases lt_trichotomy x y with hxy | hxy | hxy
        · rcases lt_trichotomy y z with hyz | hyz | hyz
          · simp [lexLe, lt_trans hxy hyz]
          · subst hyz; simp [lexLe, hxy]
          · simp [lexLe, lt_asymm hyz, hyz] at h2
        · subst hxy
          rcases lt_trichotomy x z with hxz | hxz | hxz
          · simp [lexLe, hxz]
          · subst hxz
            simp only [lexLe, lt_self_iff_false, if_false] at h1 h2 ⊢
            exact ih h1 h2
          · simp [lexLe, lt_asymm hxz, hxz] at h2
        · simp [lexLe, lt_asymm hxy, hxy] at h1

theorem lexLe_antisymm {a b : List Char} (h1 : lexLe a b = true)
    (h2 : lexLe b a = true) : a = b := by
  induction a generalizing b with
  | nil =>
    cases b with
    | nil => rfl
    | cons y ys => simp [lexLe] at h2
  | cons x xs ih =>
    cases b with
    | nil => simp [lexLe] at h1
    | cons y ys =>
      rcases lt_trichotomy x y with hxy | hxy | hxy
      · simp [lexLe, lt_asymm hxy, hxy] at h2
      · subst hxy
        simp only [lexLe, lt_self_iff_false, if_false] at h1 h2
        rw [ih h1 h2]
      · simp [lexLe, lt_asymm hxy, hxy] at h1

instance : IsTotal String keyLe :=
  ⟨fun a b => lexLe_total a.data b.data⟩

instance : IsTrans String keyLe :=
  ⟨fun _ _ _ h1 h2 => lexLe_trans h1 h2⟩

instance : IsAntisymm String keyLe := by
  constructor
  intro a b h1 h2
  cases a; cases b
  exact congrArg String.mk (lexLe_antisymm h1 h2)

/-- Filtering commutes with the key sort. -/
theorem filter_insertionSort (q : String → Bool) (l : List String) :
    (List.insertionSort keyLe l).filter q =
      List.insertionSort keyLe (l.filter q) := by
  apply List.eq_of_perm_of_sorted (r := keyLe)
  · exact ((List.perm_insertionSort keyLe l).filter q).trans
      (List.perm_insertionSort keyLe (l.filter q)).symm
  · exact List.Pairwise.filter q (List.sorted_insertionSort keyLe l)
  · exact List.sorted_insertionSort keyLe _

/-- The decoded gateway response `unifiedResult`; Go's zero value for every
field is the empty string. -/
structure unifiedResult where
  ReturnCode : String := ""
  ReturnMsg  : String := ""
  Appid      : String := ""
  MchId      : String := ""
  DeviceInfo : String := ""
  NonceStr   : String := ""
  Sign       : String := ""
  ResultCode : String := ""
  ErrCode    : String := ""
  ErrCodeDes : String := ""
  TradeType  : String := ""
  PrepayId   : String := ""
  CodeUrl    : String := ""
  deriving DecidableEq

/-- One reflection step of `unifiedResult.ListParam`: the field is put into
the map under its tag name unless its value is the zero value `""`. -/
def chunk (k v : String) : Params :=
  if v = "" then [] else [(k, v)]

/-- `unifiedResult.ListParam`: collects every non-zero field under its XML tag
name, in struct-field order. -/
def unifiedResult.ListParam (u : unifiedResult) : Params :=
  chunk "return_code" u.ReturnCode ++ chunk "return_msg" u.ReturnMsg ++
  chunk "appid" u.Appid ++ chunk "mch_id" u.MchId ++
  chunk "device_info" u.DeviceInfo ++ chunk "nonce_str" u.NonceStr ++
  chunk "sign" u.Sign ++ chunk "result_code" u.ResultCode ++
  chunk "err_code" u.ErrCode ++ chunk "err_code_des" u.ErrCodeDes ++
  chunk "trade_type" u.TradeType ++ chunk "prepay_id" u.PrepayId ++
  chunk "code_url" u.CodeUrl

/-- The `k=v` pair emitted for one key of the canonical string. -/
def pairStr (p : Params) (k : String) : String :=
  k ++ "=" ++ (p.get? k).getD ""

/-- The signature-string loop of `checkWxSign`, with the running index `i` of
the Go `for i, k := range keys` loop made explicit: the `sign` key is skipped,
and the pair at index 0 — whether or not it was skipped — is the one emitted
without a leading `&`. -/
def signStrAux (p : Params) : Nat → List String → String
  | _, [] => ""
  | i, k :: rest =>
    (if k = "sign" then ""
     else if i = 0 then pairStr p k else "&" ++ pairStr p k)
      ++ signStrAux p (i + 1) rest

/-- The full string hashed by `checkWxSign`: the loop output over the sorted
keys of `ListParam`, then `&key=<apiKey>`. -/
def implSignStr (u : unifiedResult) (apiKey : String) : String :=
  signStrAux u.ListParam 0 (u.ListParam.SortKey) ++ "&key=" ++ apiKey

/-- `strings.ToUpper`, embedded as a per-character map so that the kernel can
evaluate it (ASCII digests only are uppercased here). -/
def strUpper (s : String) : String :=
  ⟨s.data.map Char.toUpper⟩

/-- Modelled from the spec: the two digest primitives `util.SignMd5` and
`util.SignHMACSHA256` (hex digests of the canonical string); `pkg/util` is not
under `src/`, so they are abstract deterministic functions here. -/
structure HashImpl where
  md5 : String → String
  hmacSha256 : String → String → String

/-- Error values of the module.  The constructors for `pkg/e` sentinel errors
(`ErrParams`, `ErrTradeType`, `ErrOpenId`, `ErrSignType`, `ErrNoSign`,
`ErrCheckSign`, and the configuration error of `checkForPay`) are modelled
from the spec since `pkg/e` is not under `src/`; the remaining constructors
carry the message built at the corresponding `errors.New` call site. -/
inductive WxErr where
  | errParams
  | errNotConfigured
  | errTradeType
  | errOpenId
  | needParam (name : String)
  | noNeedParam (name : String)
  | errSignType
  | errNoSign
  | transportErr (msg : String)
  | returnMsg (msg : String)
  | errCodeDes (msg : String)
  | errCheckSign
  deriving DecidableEq

/-- The uppercased digest computed inside `checkWxSign` from the sorted
response fields (`e.SignTypeMD5 = "MD5"`, `e.SignType256 = "HMAC-SHA256"`);
the Go `switch` leaves `sign` empty for any other value. -/
def recomputeSign (h : HashImpl) (apiKey : String) (u : unifiedResult)
    (signType : String) : String :=
  match signType with
  | "MD5" => strUpper (h.md5 (implSignStr u apiKey))
  | "HMAC-SHA256" => strUpper (h.hmacSha256 (implSignStr u apiKey) apiKey)
  | _ => ""

/-- `unifiedResult.checkWxSign`: an empty sign type defaults to MD5; an
unsupported sign type is `ErrSignType`; a response whose `ListParam` carries
no `sign` key is `ErrNoSign`; otherwise the recomputed digest is compared
with the stored one and the boolean outcome is returned. -/
def checkWxSign (h : HashImpl) (apiKey : String) (u : unifiedResult)
    (signType : String) : Except WxErr Bool :=
  let st := if signType = "" then "MD5" else signType
  if st ≠ "MD5" ∧ st ≠ "HMAC-SHA256" then .error .errSignType
  else if (u.ListParam).get? "sign" = none then .error .errNoSign
  else .ok (recomputeSign h apiKey u st = ((u.ListParam).get? "sign").getD "")

/-- `&`-prefixed join of the pairs after the first one. -/
def ampJoin : List String → String
  | [] => ""
  | s :: rest => "&" ++ s ++ ampJoin rest

/-- Join with `&` and no separator before the first element. -/
def joinAmp : List String → String
  | [] => ""
  | s :: rest => s ++ ampJoin rest

/-- Modelled from the spec (canonicalization rule, for refinement comparison
with `implSignStr`): iterate the sorted keys excluding `sign`, join `key=value`
pairs with `&` with no separator before the first pair, then append
`&key=<apiKey>`. -/
def specCanonical (p : Params) (apiKey : String) : String :=
  joinAmp (((p.SortKey).filter (fun k => k != "sign")).map (pairStr p)) ++
    "&key=" ++ apiKey

/-- Modelled from the spec: `Params.Sign` hashes the canonical string of the
field-set with the chosen algorithm and uppercases the hex digest, failing on
an unsupported algorithm; `pkg` code is not under `src/`. -/
def Params.Sign (h : HashImpl) (apiKey : String) (p : Params)
    (signType : String) : Except WxErr String :=
  if signType = "MD5" then .ok (strUpper (h.md5 (specCanonical p apiKey)))
  else if signType = "HMAC-SHA256" then
    .ok (strUpper (h.hmacSha256 (specCanonical p apiKey) apiKey))
  else .error .errSignType

/-- `unifiedMustParam`: the required request fields, in source order. -/
def unifiedMustParam : List String :=
  ["appid", "mch_id", "nonce_str", "body", "out_trade_no", "total_fee",
   "spbill_create_ip", "notify_url", "trade_type"]

/-- `unifiedOptionalParam`: the allowed optional request fields. -/
def unifiedOptionalParam : List String :=
  ["device_info", "sign_type", "detail", "attach", "fee_type", "time_start",
   "time_expire", "goods_tag", "limit_pay", "receipt", "openid"]

/-- The required-field loop of `UnifiedOrder`: the first entry of
`unifiedMustParam` (skipping `"sign"`, as the loop does) that is absent from
the map. -/
def firstMissingRequired (p : Params) : Option String :=
  unifiedMustParam.find? (fun v => v != "sign" && (p.get? v).isNone)

/-- The unknown-field loop of `UnifiedOrder`: the first key of the map
(`util.HaveInArray` is list membership) that is in neither the required nor
the optional list. -/
def firstUnknown (p : Params) : Option String :=
  (p.map (·.1)).find?
    (fun k => !unifiedMustParam.contains k && !unifiedOptionalParam.contains k)

/-- The configured payer (`myPayer`): appId, mchId and the shared apiKey. -/
structure Payer where
  appId : String
  mchId : String
  apiKey : String
  deriving DecidableEq

/-- Modelled from the spec: `myPayer.checkForPay` fails when the credentials
have not been initialized; the `myPayer` methods outside this file are not
under `src/`. -/
def checkForPay (m : Payer) : Except WxErr Unit :=
  if m.appId = "" ∨ m.mchId = "" ∨ m.apiKey = "" then .error .errNotConfigured
  else .ok ()

/-- The response gates at the end of `UnifiedOrder`: the transport/decode
outcome of `postUnifiedOrder` (an error message or a decoded
`unifiedResult`), then `return_code`, then `result_code`, then
`checkWxSign`. -/
def checkResult (h : HashImpl) (apiKey : String) (signType : String)
    (transport : Except String unifiedResult) : Except WxErr unifiedResult :=
  match transport with
  | .error msg => .error (.transportErr msg)
  | .ok result =>
    if result.ReturnCode ≠ "SUCCESS" then .error (.returnMsg result.ReturnMsg)
    else if result.ResultCode ≠ "SUCCESS" then
      .error (.errCodeDes result.ErrCodeDes)
    else
      match checkWxSign h apiKey result signType with
      | .error _ => .error .errCheckSign
      | .ok false => .error .errCheckSign
      | .ok true => .ok result

/-- All entries of the map except those stored under `k`. -/
def eraseKey (p : Params) (k : String) : Params :=
  p.filter (fun kv => kv.1 != k)

theorem find?_filter_of_imp {α} (l : List α) (p q : α → Bool)
    (h : ∀ a, p a = true → q a = true) :
    (l.filter q).find? p = l.find? p := by
  induction l with
  | nil => rfl
  | cons x xs ih =>
    by_cases hp : p x = true
    · simp [List.filter_cons, h x hp, List.find?_cons, hp]
    · by_cases hq : q x = true <;>
        simp [List.filter_cons, hq, List.find?_cons, hp, ih]

theorem get?_append (p q : Params) (k : String) :
    Params.get? (p ++ q) k = (Params.get? p k).or (Params.get? q k) := by
  unfold Params.get?
  rw [List.find?_append]
  cases p.find? (fun kv => kv.1 == k) <;> simp

theorem get?_eraseKey (p : Params) {k k' : String} (h : k' ≠ k) :
    Params.get? (eraseKey p k) k' = Params.get? p k' := by
  unfold Params.get? eraseKey
  rw [find?_filter_of_imp]
  intro kv hkv
  have : kv.1 = k' := by simpa using hkv
  simp [this, h]

theorem get?_add_self (p : Params) (k v : String) :
    Params.get? (p.add k v) k = some v := by
  unfold Params.add
  rw [get?_append]
  have h1 : Params.get? (p.filter (fun kv => kv.1 != k)) k = none := by
    unfold Params.get?
    have hf : List.find? (fun kv => kv.1 == k) (p.filter (fun kv => kv.1 != k)) =
        none := by
      rw [List.find?_eq_none]
      intro kv hkv
      have : kv.1 ≠ k := by simpa using (List.mem_filter.mp hkv).2
      simp [this]
    rw [hf]
    rfl
  rw [h1]
  simp [Params.get?, List.find?]

theorem get?_add_ne (p : Params) {k k' : String} (v : String) (h : k' ≠ k) :
    Params.get? (p.add k v) k' = Params.get? p k' := by
  unfold Params.add
  rw [get?_append]
  have h2 : Params.get? [(k, v)] k' = none := by
    have hb : (k == k') = false := beq_eq_false_iff_ne.mpr (Ne.symm h)
    simp [Params.get?, List.find?, hb]
  rw [h2]
  have h1 : Params.get? (p.filter (fun kv => kv.1 != k)) k' =
      Params.get? p k' := get?_eraseKey p h
  cases hx : Params.get? p k' <;> simp [h1, hx]

theorem get?_chunk_ne {k k₀ : String} (v : String) (h : k ≠ k₀) :
    Params.get? (chunk k₀ v) k = none := by
  unfold chunk
  split
  · rfl
  · have hb : (k₀ == k) = false := beq_eq_false_iff_ne.mpr (Ne.symm h)
    simp [Params.get?, List.find?, hb]

theorem get?_chunk_self (k v : String) :
    Params.get? (chunk k v) k = if v = "" then none else some v := by
  unfold chunk
  split <;> simp [Params.get?, List.find?]

/-- `ListParam` exposes a `sign` key exactly when the decoded `Sign` field is
non-empty, and then with the stored value. -/
theorem get?_ListParam_sign (u : unifiedResult) :
    Params.get? u.ListParam "sign" = if u.Sign = "" then none else some u.Sign := by
  have hne : ∀ v : String, ∀ k₀, "sign" ≠ k₀ →
      Params.get? (chunk k₀ v) "sign" = none := fun v k₀ h => get?_chunk_ne v h
  simp only [unifiedResult.ListParam, get?_append,
    hne u.ReturnCode "return_code" (by decide),
    hne u.ReturnMsg "return_msg" (by decide),
    hne u.Appid "appid" (by decide),
    hne u.MchId "mch_id" (by decide),
    hne u.DeviceInfo "device_info" (by decide),
    hne u.NonceStr "nonce_str" (by decide),
    hne u.ResultCode "result_code" (by decide),
    hne u.ErrCode "err_code" (by decide),
    hne u.ErrCodeDes "err_code_des" (by decide),
    hne u.TradeType "trade_type" (by decide),
    hne u.PrepayId "prepay_id" (by decide),
    hne u.CodeUrl "code_url" (by decide),
    get?_chunk_self, Option.none_or, Option.or_none]

theorem signStrAux_pos (p : Params) (ks : List String) (i : Nat) (h : i ≠ 0) :
    signStrAux p i ks =
      ampJoin ((ks.filter (fun k => k != "sign")).map (pairStr p)) := by
  induction ks generalizing i with
  | nil => rfl
  | cons k rest ih =>
    by_cases hk : k = "sign"
    · subst hk
      simp [signStrAux, List.filter_cons, ih (i + 1) (Nat.succ_ne_zero i)]
    · simp [signStrAux, hk, h, List.filter_cons,
        ih (i + 1) (Nat.succ_ne_zero i), ampJoin, String.append_assoc]

theorem signStrAux_zero (p : Params) (ks : List String)
    (h : ks.head? ≠ some "sign") :
    signStrAux p 0 ks =
      joinAmp ((ks.filter (fun k => k != "sign")).map (pairStr p)) := by
  cases ks with
  | nil => rfl
  | cons k rest =>
    have hk : k ≠ "sign" := by simpa using h
    simp [signStrAux, hk, List.filter_cons,
      signStrAux_pos p rest (0 + 1) (by simp), joinAmp]

/-- The keys actually hashed: sorted non-empty keys with `sign` removed. -/
def canonKeys (p : Params) : List String :=
  (p.SortKey).filter (fun k => k != "sign")

theorem canonKeys_eraseKey (p : Params) :
    canonKeys p =
      List.insertionSort keyLe
        (((eraseKey p "sign").filter (fun kv => kv.2 != "")).map (·.1)) := by
  unfold canonKeys Params.SortKey
  rw [filter_insertionSort]
  congr 1
  rw [List.filter_map]
  unfold eraseKey
  rw [List.filter_filter, List.filter_filter]
  congr 1
  apply List.filter_congr
  intro kv _
  simp only [Function.comp]
  exact Bool.and_comm _ _

theorem map_pairStr_canonKeys (p : Params) :
    (canonKeys p).map (pairStr p) =
      (canonKeys p).map (pairStr (eraseKey p "sign")) := by
  apply List.map_congr_left
  intro k hk
  have hne : k ≠ "sign" := by simpa using (List.mem_filter.mp hk).2
  unfold pairStr
  rw [get?_eraseKey p hne]

theorem specCanonical_eq_erased (p : Params) (key : String) :
    specCanonical p key =
      joinAmp ((canonKeys p).map (pairStr (eraseKey p "sign"))) ++
        "&key=" ++ key := by
  unfold specCanonical
  rw [show ((p.SortKey).filter (fun k => k != "sign")).map (pairStr p) =
      (canonKeys p).map (pairStr p) from rfl]
  rw [map_pairStr_canonKeys]

/-- The spec-side canonical string only depends on the map with the `sign`
entry removed. -/
theorem specCanonical_congr {p q : Params} (key : String)
    (h : eraseKey p "sign" = eraseKey q "sign") :
    specCanonical p key = specCanonical q key := by
  rw [specCanonical_eq_erased, specCanonical_eq_erased,
    canonKeys_eraseKey, canonKeys_eraseKey, h]

theorem eraseKey_chunk_self (k v : String) : eraseKey (chunk k v) k = [] := by
  unfold eraseKey chunk
  split <;> simp

theorem eraseKey_chunk_ne {k k₀ : String} (v : String) (h : k₀ ≠ k) :
    eraseKey (chunk k₀ v) k = chunk k₀ v := by
  unfold eraseKey chunk
  split <;> simp [h]

/-- Overwriting the `Sign` field does not change the sign-erased `ListParam`. -/
theorem eraseSign_ListParam_set (u : unifiedResult) (s : String) :
    eraseKey (unifiedResult.ListParam { u with Sign := s }) "sign" =
      eraseKey u.ListParam "sign" := by
  have hne : ∀ v : String, ∀ k₀, k₀ ≠ "sign" →
      eraseKey (chunk k₀ v) "sign" = chunk k₀ v := fun v k₀ h =>
    eraseKey_chunk_ne v h
  simp only [unifiedResult.ListParam, eraseKey, List.filter_append]
  simp only [show ∀ (p : Params), p.filter (fun kv => kv.1 != "sign") =
      eraseKey p "sign" from fun _ => rfl]
  rw [eraseKey_chunk_self, eraseKey_chunk_self,
    hne u.ReturnCode "return_code" (by decide),
    hne u.ReturnMsg "return_msg" (by decide),
    hne u.Appid "appid" (by decide),
    hne u.MchId "mch_id" (by decide),
    hne u.DeviceInfo "device_info" (by decide),
    hne u.NonceStr "nonce_str" (by decide),
    hne u.ResultCode "result_code" (by decide),
    hne u.ErrCode "err_code" (by decide),
    hne u.ErrCodeDes "err_code_des" (by decide),
    hne u.TradeType "trade_type" (by decide),
    hne u.PrepayId "prepay_id" (by decide),
    hne u.CodeUrl "code_url" (by decide)]

theorem find?_eq_some_split {α} {pred : α → Bool} :
    ∀ {l : List α} {a : α}, l.find? pred = some a ↔
      pred a = true ∧ ∃ l₁ l₂, l = l₁ ++ a :: l₂ ∧ ∀ x ∈ l₁, pred x = false := by
  intro l
  induction l with
  | nil => simp
  | cons x xs ih =>
    intro a
    by_cases hx : pred x = true
    · simp only [List.find?_cons, hx]
      constructor
      · intro he
        cases he
        exact ⟨hx, [], xs, rfl, by simp⟩
      · rintro ⟨ha, l₁, l₂, hsplit, hfalse⟩
        cases l₁ with
        | nil =>
          simp at hsplit
          rw [hsplit.1]
        | cons y l₁ =>
          have hy : x = y := by simpa using congrArg (List.head? ·) hsplit
          have := hfalse y (by simp)
          rw [← hy, hx] at this
          cases this
    · have hx' : pred x = false := by simpa using hx
      simp only [List.find?_cons, hx']
      constructor
      · intro he
        rcases (ih (a := a)).mp he with ⟨ha, l₁, l₂, hsplit, hfalse⟩
        refine ⟨ha, x :: l₁, l₂, by simp [hsplit], ?_⟩
        intro z hz
        rcases List.mem_cons.mp hz with hz | hz
        · rw [hz]; exact hx'
        · exact hfalse z hz
      · rintro ⟨ha, l₁, l₂, hsplit, hfalse⟩
        cases l₁ with
        | nil =>
          simp at hsplit
          rw [hsplit.1] at hx
          exact absurd ha hx
        | cons y l₁ =>
          have htail : xs = l₁ ++ a :: l₂ := by simpa using congrArg (List.tail ·) hsplit
          refine (ih (a := a)).mpr ⟨ha, l₁, l₂, htail, ?_⟩
          intro z hz
          exact hfalse z (by simp [hz])

/-- Lines 135-136 of `UnifiedOrder`: inject `appid` and `mch_id` from the
configured credentials, overwriting caller-supplied values. -/
def injected (m : Payer) (p : Params) : Params :=
  (p.add "appid" m.appId).add "mch_id" m.mchId

/-- Lines 141-148 of `UnifiedOrder`: the signing algorithm is the value of
the `sign_type` field when present, else the MD5 default. -/
def effectiveSignType (p : Params) : String :=
  match p.get? "sign_type" with
  | some t => t
  | none => "MD5"

/-- Lines 171-196 of `UnifiedOrder`: sign the validated map, add the
signature under `sign`, and run the transport exchange and response gates. -/
def signAndSend (h : HashImpl) (m : Payer) (param : Params)
    (signType : String) (transport : Except String unifiedResult) :
    Except WxErr unifiedResult × Option Params :=
  match Params.Sign h m.apiKey param signType with
  | .error err => (.error err, some param)
  | .ok sign =>
    (checkResult h m.apiKey signType transport, some (param.add "sign" sign))

/-- The body of `UnifiedOrder` after credential injection: read `trade_type`
and `sign_type`, run the JSAPI/required/unknown field checks, sign, add the
signature to the map, and run the response gates. -/
def validateAndSend (h : HashImpl) (m : Payer) (param : Params)
    (transport : Except String unifiedResult) :
    Except WxErr unifiedResult × Option Params :=
  match param.get? "trade_type" with
  | none => (.error .errTradeType, some param)
  | some tradeType =>
    let signType := effectiveSignType param
    if tradeType = "JSAPI" ∧ param.get? "openid" = none then
      (.error .errOpenId, some param)
    else
      match firstMissingRequired param with
      | some v => (.error (.needParam v), some param)
      | none =>
        match firstUnknown param with
        | some k => (.error (.noNeedParam k), some param)
        | none => signAndSend h m param signType transport

/-- `myPayer.UnifiedOrder`.  The caller's map is threaded explicitly (Go
mutates it in place), and the function returns the outcome together with the
final state of that map; the transport exchange is an oracle argument giving
the decoded response or a transport/decode error message.  The `sign_type`
passed to `checkWxSign` is the same value used for `Params.Sign`, and
`checkWxSign` reads the same `apiKey` (the global `defaultPayer` of the Go
code is the configured payer). -/
def UnifiedOrder (h : HashImpl) (m : Payer) (param? : Option Params)
    (transport : Except String unifiedResult) :
    Except WxErr unifiedResult × Option Params :=
  match param? with
  | none => (.error .errParams, none)
  | some param =>
    match checkForPay m with
    | .error err => (.error err, some param)
    | .ok _ => validateAndSend h m (injected m param) transport


/-! ### Witness fixtures -/

/-- A concrete hash implementation for witnesses and counterexamples: the
digest of a canonical string is the string itself. -/
def idHash : HashImpl :=
  ⟨fun s => s, fun s _ => s⟩

/-- A configured payer fixture. -/
def testPayer : Payer :=
  ⟨"wx1", "m1", "k"⟩

/-- A fully successful gateway response fixture whose stored signature equals
the one `idHash` recomputes under apiKey `"k"`. -/
def okResponse : unifiedResult :=
  { ReturnCode := "SUCCESS", ResultCode := "SUCCESS",
    Sign := "RESULT_CODE=SUCCESS&RETURN_CODE=SUCCESS&KEY=K" }

/-- A caller parameter set carrying every required field except the injected
`appid` and `mch_id`. -/
def validOrderParams : Params :=
  [("nonce_str", "n"), ("body", "b"), ("out_trade_no", "1"),
   ("total_fee", "9"), ("spbill_create_ip", "ip"), ("notify_url", "u"),
   ("trade_type", "NATIVE")]

/-! ### Helper lemmas about the response gates -/

theorem checkResult_ok {h : HashImpl} {key st : String}
    {t : Except String unifiedResult} {r : unifiedResult}
    (he : checkResult h key st t = .ok r) :
    t = .ok r ∧ r.ReturnCode = "SUCCESS" ∧ r.ResultCode = "SUCCESS" ∧
      checkWxSign h key r st = .ok true := by
  cases t with
  | error msg => simp [checkResult] at he
  | ok res =>
    simp only [checkResult] at he
    by_cases h1 : res.ReturnCode ≠ "SUCCESS"
    · rw [if_pos h1] at he; simp at he
    · rw [if_neg h1] at he
      by_cases h2 : res.ResultCode ≠ "SUCCESS"
      · rw [if_pos h2] at he; simp at he
      · rw [if_neg h2] at he
        cases hc : checkWxSign h key res st with
        | error e => rw [hc] at he; simp at he
        | ok b =>
          cases b with
          | false => rw [hc] at he; simp at he
          | true =>
            rw [hc] at he
            have hr : res = r := by simpa using he
            subst hr
            exact ⟨rfl, not_ne_iff.mp h1, not_ne_iff.mp h2, hc⟩

theorem UnifiedOrder_ok {h : HashImpl} {m : Payer} {param? : Option Params}
    {t : Except String unifiedResult} {r : unifiedResult}
    (he : (UnifiedOrder h m param? t).1 = .ok r) :
    ∃ st, checkResult h m.apiKey st t = .ok r := by
  simp only [UnifiedOrder, validateAndSend, signAndSend] at he
  split at he
  · simp at he
  · split at he
    · simp at he
    · split at he
      · simp at he
      · split at he
        · simp at he
        · split at he
          · simp at he
          · split at he
            · simp at he
            · split at he
              · simp at he
              · exact ⟨_, by simpa using he⟩

/-! ### Claim C1 -/

/-- C1: `UnifiedOrder` returns a successful (non-error) result only if the
decoded response has `return_code = "SUCCESS"`, `result_code = "SUCCESS"`,
and a recomputed signature matching its `sign` field; a response whose sign
comparison returns false yields the signature-check error, never a
successful result. -/
theorem unifiedOrder_success_gates :
    (∀ (h : HashImpl) (m : Payer) (param? : Option Params)
        (t : Except String unifiedResult) (r : unifiedResult),
        (UnifiedOrder h m param? t).1 = .ok r →
          r.ReturnCode = "SUCCESS" ∧ r.ResultCode = "SUCCESS" ∧
            ∃ st, checkWxSign h m.apiKey r st = .ok true) ∧
    (∀ (h : HashImpl) (key st : String) (r : unifiedResult),
        r.ReturnCode = "SUCCESS" → r.ResultCode = "SUCCESS" →
        checkWxSign h key r st = .ok false →
          checkResult h key st (.ok r) = .error .errCheckSign) := by
  constructor
  · intro h m param? t r he
    obtain ⟨st, hcr⟩ := UnifiedOrder_ok he
    obtain ⟨-, h1, h2, h3⟩ := checkResult_ok hcr
    exact ⟨h1, h2, st, h3⟩
  · intro h key st r h1 h2 hc
    simp only [checkResult]
    rw [if_neg (by simp [h1]), if_neg (by simp [h2]), hc]

/-- A response whose stored signature does not match what `idHash`
recomputes. -/
def badSigResponse : unifiedResult :=
  { ReturnCode := "SUCCESS", ResultCode := "SUCCESS", Sign := "WRONG" }

/-- Witness for C1: a concrete successful run, and a concrete mismatching
response rejected with the signature-check error. -/
theorem unifiedOrder_success_gates_witness :
    ((UnifiedOrder idHash testPayer (some validOrderParams)
        (.ok okResponse)).1 = .ok okResponse ∧
      (okResponse.ReturnCode = "SUCCESS" ∧ okResponse.ResultCode = "SUCCESS" ∧
        ∃ st, checkWxSign idHash testPayer.apiKey okResponse st = .ok true)) ∧
    ((badSigResponse.ReturnCode = "SUCCESS" ∧
        badSigResponse.ResultCode = "SUCCESS" ∧
        checkWxSign idHash "k" badSigResponse "MD5" = .ok false) ∧
      checkResult idHash "k" "MD5" (.ok badSigResponse) =
        .error .errCheckSign) :=
  ⟨⟨by decide, unifiedOrder_success_gates.1 idHash testPayer
      (some validOrderParams) (.ok okResponse) okResponse (by decide)⟩,
   ⟨⟨rfl, rfl, by decide⟩, unifiedOrder_success_gates.2 idHash "k" "MD5"
      badSigResponse rfl rfl (by decide)⟩⟩

/-! ### Claim C2 -/

/-- C2: the response gates are evaluated in the fixed order transport →
protocol (`return_code`) → business (`result_code`) → signature: a
transport/decode failure is surfaced untouched, `return_code ≠ "SUCCESS"`
fails with the gateway message regardless of `result_code`, `result_code` is
only consulted after `return_code` succeeded, and the signature is only
consulted after both succeeded. -/
theorem checkResult_gate_order :
    (∀ (h : HashImpl) (key st msg : String),
        checkResult h key st (.error msg) = .error (.transportErr msg)) ∧
    (∀ (h : HashImpl) (key st : String) (r : unifiedResult),
        r.ReturnCode ≠ "SUCCESS" →
        checkResult h key st (.ok r) = .error (.returnMsg r.ReturnMsg)) ∧
    (∀ (h : HashImpl) (key st : String) (r : unifiedResult),
        r.ReturnCode = "SUCCESS" → r.ResultCode ≠ "SUCCESS" →
        checkResult h key st (.ok r) = .error (.errCodeDes r.ErrCodeDes)) ∧
    (∀ (h : HashImpl) (key st : String) (r : unifiedResult),
        r.ReturnCode = "SUCCESS" → r.ResultCode = "SUCCESS" →
        checkResult h key st (.ok r) =
          match checkWxSign h key r st with
          | .ok true => .ok r
          | _ => .error .errCheckSign) := by
  refine ⟨fun h key st msg => rfl, ?_, ?_, ?_⟩
  · intro h key st r h1
    simp only [checkResult]
    rw [if_pos h1]
  · intro h key st r h1 h2
    simp only [checkResult]
    rw [if_neg (by simp [h1]), if_pos h2]
  · intro h key st r h1 h2
    simp only [checkResult]
    rw [if_neg (by simp [h1]), if_neg (by simp [h2])]
    cases checkWxSign h key r st with
    | error e => rfl
    | ok b => cases b <;> rfl

/-- A protocol-level failure response with a populated business field. -/
def failProtocolResponse : unifiedResult :=
  { ReturnCode := "FAIL", ReturnMsg := "msg", ResultCode := "SUCCESS" }

/-- A business-level failure response. -/
def failBusinessResponse : unifiedResult :=
  { ReturnCode := "SUCCESS", ResultCode := "FAIL", ErrCodeDes := "bad" }

/-- Witness for C2 at concrete responses for each gate. -/
theorem checkResult_gate_order_witness :
    checkResult idHash "k" "MD5" (.error "boom") =
      .error (.transportErr "boom") ∧
    (failProtocolResponse.ReturnCode ≠ "SUCCESS" ∧
      checkResult idHash "k" "MD5" (.ok failProtocolResponse) =
        .error (.returnMsg failProtocolResponse.ReturnMsg)) ∧
    (failBusinessResponse.ReturnCode = "SUCCESS" ∧
      failBusinessResponse.ResultCode ≠ "SUCCESS" ∧
      checkResult idHash "k" "MD5" (.ok failBusinessResponse) =
        .error (.errCodeDes failBusinessResponse.ErrCodeDes)) ∧
    checkResult idHash "k" "MD5" (.ok okResponse) =
      (match checkWxSign idHash "k" okResponse "MD5" with
       | .ok true => .ok okResponse
       | _ => .error .errCheckSign) :=
  ⟨checkResult_gate_order.1 idHash "k" "MD5" "boom",
   ⟨by decide, checkResult_gate_order.2.1 idHash "k" "MD5"
      failProtocolResponse (by decide)⟩,
   ⟨rfl, by decide, checkResult_gate_order.2.2.1 idHash "k" "MD5"
      failBusinessResponse rfl (by decide)⟩,
   checkResult_gate_order.2.2.2 idHash "k" "MD5" okResponse rfl rfl⟩

/-! ### Claim C3 -/

/-- C3 counterexample: for a response whose only non-empty fields are `sign`
and `trade_type`, the `sign` key sorts first and the skipped index-0 slot of
the loop makes the hashed string begin with `&` — a separator before the
first emitted pair — so it differs from the spec canonical string. -/
theorem implSignStr_leading_amp_counterexample :
    implSignStr { Sign := "s", TradeType := "APP" } "k" =
      "&trade_type=APP&key=k" ∧
    implSignStr { Sign := "s", TradeType := "APP" } "k" ≠
      specCanonical
        (unifiedResult.ListParam { Sign := "s", TradeType := "APP" }) "k" := by
  decide

/-- C3 (amended): whenever the excluded `sign` key is not the first sorted
key of the response field-set, the string hashed by `checkWxSign` is exactly
the canonical string of the spec: sorted non-empty keys excluding `sign`,
`key=value` pairs joined with `&`, no separator before the first emitted
pair, then `&key=<apiKey>`. -/
theorem implSignStr_eq_specCanonical (u : unifiedResult) (key : String)
    (h : (u.ListParam.SortKey).head? ≠ some "sign") :
    implSignStr u key = specCanonical u.ListParam key := by
  unfold implSignStr specCanonical
  rw [signStrAux_zero _ _ h]

/-- Witness for C3 (amended) at a concrete response. -/
theorem implSignStr_eq_specCanonical_witness :
    ((unifiedResult.ListParam okResponse).SortKey.head? ≠ some "sign") ∧
    implSignStr okResponse "k" =
      specCanonical (unifiedResult.ListParam okResponse) "k" :=
  ⟨by decide, implSignStr_eq_specCanonical okResponse "k" (by decide)⟩

/-! ### Claim C5 -/

/-- C5 counterexample: with an unsupported algorithm, `checkWxSign` returns
the invalid-algorithm error — a hard failure that is neither the
missing-signature error (although the response carries no `sign` field at
all) nor a boolean match result. -/
theorem checkWxSign_unsupported_counterexample :
    Params.get? (unifiedResult.ListParam {}) "sign" = none ∧
    checkWxSign idHash "k" {} "SHA1" = .error .errSignType ∧
    WxErr.errSignType ≠ WxErr.errNoSign := by
  decide

/-- C5 (amended): provided the sign type is empty (defaulting to MD5) or one
of the two supported algorithms, verification fails with the
missing-signature error exactly when the response carries no `sign` field,
and otherwise returns the boolean comparison of recomputed and stored
signatures rather than a hard failure. -/
theorem checkWxSign_missing_or_boolean (h : HashImpl) (key : String)
    (u : unifiedResult) (st : String)
    (hst : st = "" ∨ st = "MD5" ∨ st = "HMAC-SHA256") :
    (checkWxSign h key u st = .error .errNoSign ↔
      Params.get? u.ListParam "sign" = none) ∧
    (Params.get? u.ListParam "sign" ≠ none →
      checkWxSign h key u st =
        .ok (recomputeSign h key u (if st = "" then "MD5" else st) =
          (Params.get? u.ListParam "sign").getD "")) := by
  obtain h' | h' | h' := hst <;> subst h' <;>
    refine ⟨?_, ?_⟩ <;>
    by_cases hg : Params.get? u.ListParam "sign" = none <;>
    simp [checkWxSign, hg]

/-- Witness for C5 (amended) at a concrete response carrying a signature. -/
theorem checkWxSign_missing_or_boolean_witness :
    ("MD5" = "" ∨ "MD5" = "MD5" ∨ "MD5" = "HMAC-SHA256") ∧
    ((checkWxSign idHash "k" okResponse "MD5" = .error .errNoSign ↔
        Params.get? okResponse.ListParam "sign" = none) ∧
      (Params.get? okResponse.ListParam "sign" ≠ none →
        checkWxSign idHash "k" okResponse "MD5" =
          .ok (recomputeSign idHash "k" okResponse
              (if "MD5" = "" then "MD5" else "MD5") =
            (Params.get? okResponse.ListParam "sign").getD ""))) :=
  ⟨.inr (.inl rfl),
   checkWxSign_missing_or_boolean idHash "k" okResponse "MD5" (.inr (.inl rfl))⟩

/-! ### Claim C10 -/

/-- C10: a decoded response whose `Sign` field is the empty string is treated
as carrying no signature at all: `ListParam` omits the zero-valued field, so
`checkWxSign` (for the sign types arising in the order flow) returns the
missing-signature error instead of comparing against the empty string. -/
theorem emptySign_missing_signature (h : HashImpl) (key : String)
    (u : unifiedResult) (st : String)
    (hst : st = "" ∨ st = "MD5" ∨ st = "HMAC-SHA256")
    (hs : u.Sign = "") :
    Params.get? u.ListParam "sign" = none ∧
    checkWxSign h key u st = .error .errNoSign := by
  have hg : Params.get? u.ListParam "sign" = none := by
    rw [get?_ListParam_sign, if_pos hs]
  obtain h' | h' | h' := hst <;> subst h' <;>
    exact ⟨hg, by simp [checkWxSign, hg]⟩

/-- Witness for C10 at a concrete response with an empty `Sign` field. -/
theorem emptySign_missing_signature_witness :
    (("MD5" = "" ∨ "MD5" = "MD5" ∨ "MD5" = "HMAC-SHA256") ∧
      ({ ReturnCode := "SUCCESS" } : unifiedResult).Sign = "") ∧
    (Params.get? (unifiedResult.ListParam { ReturnCode := "SUCCESS" })
        "sign" = none ∧
      checkWxSign idHash "k" { ReturnCode := "SUCCESS" } "MD5" =
        .error .errNoSign) :=
  ⟨⟨.inr (.inl rfl), rfl⟩,
   emptySign_missing_signature idHash "k" { ReturnCode := "SUCCESS" } "MD5"
     (.inr (.inl rfl)) rfl⟩

/-! ### Error-shape helper lemmas -/

theorem sign_error_eq {h : HashImpl} {key : String} {p : Params}
    {st : String} {e : WxErr} (he : Params.Sign h key p st = .error e) :
    e = .errSignType := by
  unfold Params.Sign at he
  split_ifs at he
  simp_all

theorem checkResult_error_shapes {h : HashImpl} {key st : String}
    {t : Except String unifiedResult} {e : WxErr}
    (he : checkResult h key st t = .error e) :
    (∃ msg, e = .transportErr msg) ∨ (∃ msg, e = .returnMsg msg) ∨
    (∃ msg, e = .errCodeDes msg) ∨ e = .errCheckSign := by
  cases t with
  | error msg =>
    have h1 : WxErr.transportErr msg = e := by simpa [checkResult] using he
    exact .inl ⟨msg, h1.symm⟩
  | ok res =>
    simp only [checkResult] at he
    by_cases h1 : res.ReturnCode ≠ "SUCCESS"
    · rw [if_pos h1] at he
      have h2 : WxErr.returnMsg res.ReturnMsg = e := by simpa using he
      exact .inr (.inl ⟨_, h2.symm⟩)
    · rw [if_neg h1] at he
      by_cases h2 : res.ResultCode ≠ "SUCCESS"
      · rw [if_pos h2] at he
        have h3 : WxErr.errCodeDes res.ErrCodeDes = e := by simpa using he
        exact .inr (.inr (.inl ⟨_, h3.symm⟩))
      · rw [if_neg h2] at he
        cases hc : checkWxSign h key res st with
        | error e' =>
          rw [hc] at he
          have h3 : WxErr.errCheckSign = e := by simpa using he
          exact .inr (.inr (.inr h3.symm))
        | ok b =>
          rw [hc] at he
          cases b with
          | false =>
            have h3 : WxErr.errCheckSign = e := by simpa using he
            exact .inr (.inr (.inr h3.symm))
          | true => simp at he

/-! ### Claim C4 -/

/-- C4 counterexample: signing the field-set whose only non-empty field is
`trade_type`, storing the digest under `sign`, and verifying the untampered
set yields a mismatch (`.ok false`), because once `sign` is present it is the
first sorted key and the verification loop prepends a stray `&` to the
canonical string it hashes. -/
theorem signRoundtrip_counterexample :
    Params.Sign idHash "k"
        (unifiedResult.ListParam { TradeType := "APP" }) "MD5" =
      .ok "TRADE_TYPE=APP&KEY=K" ∧
    checkWxSign idHash "k"
        { TradeType := "APP", Sign := "TRADE_TYPE=APP&KEY=K" } "MD5" =
      .ok false := by
  decide

/-- C4 (amended): for both supported algorithms, signing a response
field-set, storing the non-empty result under `sign`, and verifying the same
untampered set yields a match — provided the stored `sign` key is not the
first sorted key of the resulting set (equivalently, some non-empty field
sorts before `sign`). -/
theorem signRoundtrip (h : HashImpl) (key : String) (u : unifiedResult)
    (st : String) (hst : st = "MD5" ∨ st = "HMAC-SHA256") (sig : String)
    (hsig : Params.Sign h key u.ListParam st = .ok sig) (hne : sig ≠ "")
    (hhead : ((unifiedResult.ListParam { u with Sign := sig }).SortKey).head? ≠
      some "sign") :
    checkWxSign h key { u with Sign := sig } st = .ok true := by
  have hget : Params.get? (unifiedResult.ListParam { u with Sign := sig })
      "sign" = some sig := by
    rw [get?_ListParam_sign]
    simp [hne]
  have himpl : implSignStr { u with Sign := sig } key =
      specCanonical (unifiedResult.ListParam { u with Sign := sig }) key := by
    unfold implSignStr specCanonical
    rw [signStrAux_zero _ _ hhead]
  have hspec :
      specCanonical (unifiedResult.ListParam { u with Sign := sig }) key =
        specCanonical u.ListParam key :=
    specCanonical_congr key (eraseSign_ListParam_set u sig)
  obtain h' | h' := hst <;> subst h'
  · have hsig' : strUpper (h.md5 (specCanonical u.ListParam key)) = sig := by
      simpa [Params.Sign] using hsig
    simp [checkWxSign, hget, recomputeSign, himpl, hspec, hsig']
  · have hsig' :
        strUpper (h.hmacSha256 (specCanonical u.ListParam key) key) = sig := by
      simpa [Params.Sign] using hsig
    simp [checkWxSign, hget, recomputeSign, himpl, hspec, hsig']

/-- Witness for C4 (amended): a concrete sign-then-verify roundtrip. -/
theorem signRoundtrip_witness :
    (("MD5" : String) = "MD5" ∨ ("MD5" : String) = "HMAC-SHA256") ∧
    Params.Sign idHash "k"
        (unifiedResult.ListParam { ReturnCode := "S" }) "MD5" =
      .ok "RETURN_CODE=S&KEY=K" ∧
    ("RETURN_CODE=S&KEY=K" : String) ≠ "" ∧
    (((unifiedResult.ListParam
        { ReturnCode := "S", Sign := "RETURN_CODE=S&KEY=K" }).SortKey).head? ≠
      some "sign") ∧
    checkWxSign idHash "k"
        { ReturnCode := "S", Sign := "RETURN_CODE=S&KEY=K" } "MD5" =
      .ok true :=
  ⟨.inl rfl, by decide, by decide, by decide,
   signRoundtrip idHash "k" { ReturnCode := "S" } "MD5" (.inl rfl)
     "RETURN_CODE=S&KEY=K" (by decide) (by decide) (by decide)⟩

/-! ### Helper lemmas about the injected map and the validation tail -/

theorem must_ne_sign : ∀ v ∈ unifiedMustParam, v ≠ "sign" := by
  decide

theorem get?_injected_appid (m : Payer) (p : Params) :
    Params.get? (injected m p) "appid" = some m.appId := by
  unfold injected
  rw [get?_add_ne _ _ (by decide : ("appid" : String) ≠ "mch_id"),
    get?_add_self]

theorem get?_injected_mchid (m : Payer) (p : Params) :
    Params.get? (injected m p) "mch_id" = some m.mchId := by
  unfold injected
  rw [get?_add_self]

theorem get?_injected_ne (m : Payer) (p : Params) (k : String)
    (h1 : k ≠ "appid") (h2 : k ≠ "mch_id") :
    Params.get? (injected m p) k = Params.get? p k := by
  unfold injected
  rw [get?_add_ne _ _ h2, get?_add_ne _ _ h1]

theorem signAndSend_error_shapes {h : HashImpl} {m : Payer} {param : Params}
    {st : String} {t : Except String unifiedResult} {e : WxErr}
    (he : (signAndSend h m param st t).1 = .error e) :
    e = .errSignType ∨ (∃ msg, e = .transportErr msg) ∨
    (∃ msg, e = .returnMsg msg) ∨ (∃ msg, e = .errCodeDes msg) ∨
    e = .errCheckSign := by
  cases hs : Params.Sign h m.apiKey param st with
  | error err =>
    simp only [signAndSend, hs] at he
    have h1 : err = e := by simpa using he
    exact .inl (h1 ▸ sign_error_eq hs)
  | ok sig =>
    simp only [signAndSend, hs] at he
    exact .inr (checkResult_error_shapes he)

theorem signAndSend_snd (h : HashImpl) (m : Payer) (param : Params)
    (st : String) (t : Except String unifiedResult) :
    (signAndSend h m param st t).2 = some param ∨
      ∃ sig, (signAndSend h m param st t).2 =
        some (param.add "sign" sig) := by
  cases hs : Params.Sign h m.apiKey param st with
  | error err => left; simp [signAndSend, hs]
  | ok sig => right; exact ⟨sig, by simp [signAndSend, hs]⟩

/-! ### Claim C8 -/

/-- C8: with a configured payer, `UnifiedOrder` fails with the missing-openid
error exactly when the caller's `trade_type` field equals `"JSAPI"` and no
`openid` key is present; in particular an otherwise-identical non-JSAPI
request without `openid` passes this variant-specific check. -/
theorem jsapi_openid_gate (h : HashImpl) (m : Payer) (p : Params)
    (t : Except String unifiedResult) (hcf : checkForPay m = .ok ()) :
    (UnifiedOrder h m (some p) t).1 = .error .errOpenId ↔
      (Params.get? p "trade_type" = some "JSAPI" ∧
        Params.get? p "openid" = none) := by
  have htt : Params.get? (injected m p) "trade_type" =
      Params.get? p "trade_type" :=
    get?_injected_ne m p "trade_type" (by decide) (by decide)
  have hop : Params.get? (injected m p) "openid" = Params.get? p "openid" :=
    get?_injected_ne m p "openid" (by decide) (by decide)
  simp only [UnifiedOrder, hcf]
  cases hg : Params.get? (injected m p) "trade_type" with
  | none =>
    have hgp : Params.get? p "trade_type" = none := htt.symm.trans hg
    simp [validateAndSend, hg, hgp]
  | some tt =>
    have hgp : Params.get? p "trade_type" = some tt := htt.symm.trans hg
    simp only [validateAndSend, hg]
    by_cases hj : tt = "JSAPI" ∧ Params.get? (injected m p) "openid" = none
    · rw [if_pos hj]
      obtain ⟨hj1, hj2⟩ := hj
      subst hj1
      have hjp : Params.get? p "openid" = none := hop.symm.trans hj2
      simp [hgp, hjp]
    · rw [if_neg hj]
      have hrhs : ¬(Params.get? p "trade_type" = some "JSAPI" ∧
          Params.get? p "openid" = none) := by
        rintro ⟨ha, hb⟩
        exact hj ⟨Option.some.inj (hgp.symm.trans ha), hop.trans hb⟩
      simp only [hrhs, iff_false]
      cases hr : firstMissingRequired (injected m p) with
      | some v => simp
      | none =>
        cases hu : firstUnknown (injected m p) with
        | some k => simp
        | none =>
          intro hcontra
          rcases signAndSend_error_shapes hcontra with
            h1 | ⟨msg, h1⟩ | ⟨msg, h1⟩ | ⟨msg, h1⟩ | h1 <;>
            exact WxErr.noConfusion h1

/-- Witness for C8: a JSAPI request without `openid` is rejected with the
missing-openid error. -/
theorem jsapi_openid_gate_witness :
    checkForPay testPayer = .ok () ∧
    ((UnifiedOrder idHash testPayer (some [("trade_type", "JSAPI")])
        (.error "x")).1 = .error .errOpenId ↔
      (Params.get? [("trade_type", "JSAPI")] "trade_type" = some "JSAPI" ∧
        Params.get? [("trade_type", "JSAPI")] "openid" = none)) :=
  ⟨by decide, jsapi_openid_gate idHash testPayer [("trade_type", "JSAPI")]
    (.error "x") (by decide)⟩

/-! ### Claim C6 -/

/-- C6 counterexample: a params set missing both `trade_type` and earlier
required fields fails with the trade-type error, not with an error naming the
first missing required field (`nonce_str` here), because the trade-type gate
runs before the required-field scan. -/
theorem required_field_counterexample :
    Params.get? (injected testPayer [("total_fee", "1")]) "nonce_str" =
      none ∧
    firstMissingRequired (injected testPayer [("total_fee", "1")]) =
      some "nonce_str" ∧
    (UnifiedOrder idHash testPayer (some [("total_fee", "1")])
        (.error "x")).1 = .error .errTradeType ∧
    ∀ v, WxErr.errTradeType ≠ WxErr.needParam v :=
  ⟨by decide, by decide, by decide, fun _ h => WxErr.noConfusion h⟩

/-- C6 (amended): once the earlier gates pass (configured payer, `trade_type`
present, JSAPI/openid rule satisfied), `UnifiedOrder` fails with `need <v>`
for exactly the first absent field of the required list scanned in order
`appid, mch_id, nonce_str, body, out_trade_no, total_fee, spbill_create_ip,
notify_url, trade_type` over the injected map, and passes the check iff every
required field is present. -/
theorem required_field_first_missing (h : HashImpl) (m : Payer) (p : Params)
    (t : Except String unifiedResult) (tt : String)
    (hcf : checkForPay m = .ok ())
    (htt : Params.get? (injected m p) "trade_type" = some tt)
    (hjs : ¬(tt = "JSAPI" ∧ Params.get? (injected m p) "openid" = none)) :
    (∀ v, firstMissingRequired (injected m p) = some v →
        (UnifiedOrder h m (some p) t).1 = .error (.needParam v) ∧
        Params.get? (injected m p) v = none ∧
        ∃ l₁ l₂, unifiedMustParam = l₁ ++ v :: l₂ ∧
          ∀ w ∈ l₁, Params.get? (injected m p) w ≠ none) ∧
    (firstMissingRequired (injected m p) = none →
        (∀ v, (UnifiedOrder h m (some p) t).1 ≠ .error (.needParam v)) ∧
        ∀ v ∈ unifiedMustParam, Params.get? (injected m p) v ≠ none) := by
  constructor
  · intro v hv
    obtain ⟨hpred, l₁, l₂, hdecomp, hfalse⟩ := find?_eq_some_split.mp hv
    rw [Bool.and_eq_true] at hpred
    have hvnone : Params.get? (injected m p) v = none := by
      have := hpred.2
      rwa [Option.isNone_iff_eq_none] at this
    refine ⟨?_, hvnone, l₁, l₂, hdecomp, ?_⟩
    · simp only [UnifiedOrder, hcf, validateAndSend, htt]
      rw [if_neg hjs]
      simp [hv]
    · intro w hw
      have hmem : w ∈ unifiedMustParam := by
        rw [hdecomp]
        exact List.mem_append_left _ hw
      have hbne : (w != "sign") = true := by
        simpa using must_ne_sign w hmem
      have hw' := hfalse w hw
      rw [hbne, Bool.true_and] at hw'
      intro heq
      rw [heq] at hw'
      simp at hw'
  · intro hnone
    constructor
    · intro v
      simp only [UnifiedOrder, hcf, validateAndSend, htt]
      rw [if_neg hjs, hnone]
      cases hu : firstUnknown (injected m p) with
      | some k => simp
      | none =>
        intro hcontra
        rcases signAndSend_error_shapes hcontra with
          h1 | ⟨msg, h1⟩ | ⟨msg, h1⟩ | ⟨msg, h1⟩ | h1 <;>
          exact WxErr.noConfusion h1
    · intro v hv heq
      have h1 := List.find?_eq_none.mp hnone v hv
      apply h1
      have hbne : (v != "sign") = true := by
        simpa using must_ne_sign v hv
      rw [hbne, Bool.true_and, heq]
      rfl

/-- Witness for C6 (amended): `nonce_str` is the first missing required field
once `trade_type` is supplied, and the call fails naming it. -/
theorem required_field_first_missing_witness :
    (checkForPay testPayer = .ok () ∧
      Params.get? (injected testPayer [("trade_type", "NATIVE")])
        "trade_type" = some "NATIVE" ∧
      ¬(("NATIVE" : String) = "JSAPI" ∧
        Params.get? (injected testPayer [("trade_type", "NATIVE")])
          "openid" = none) ∧
      firstMissingRequired (injected testPayer [("trade_type", "NATIVE")]) =
        some "nonce_str") ∧
    ((UnifiedOrder idHash testPayer (some [("trade_type", "NATIVE")])
        (.error "x")).1 = .error (.needParam "nonce_str") ∧
      Params.get? (injected testPayer [("trade_type", "NATIVE")])
        "nonce_str" = none ∧
      ∃ l₁ l₂, unifiedMustParam = l₁ ++ "nonce_str" :: l₂ ∧
        ∀ w ∈ l₁,
          Params.get? (injected testPayer [("trade_type", "NATIVE")]) w ≠
            none) :=
  ⟨⟨by decide, by decide, by decide, by decide⟩,
   (required_field_first_missing idHash testPayer [("trade_type", "NATIVE")]
      (.error "x") "NATIVE" (by decide) (by decide) (by decide)).1
     "nonce_str" (by decide)⟩

/-! ### Claim C7 -/

/-- C7 counterexample: a params set containing only the unknown key `foo`
fails with the trade-type error, not with an error naming the unknown field,
because the trade-type gate runs before the allow-list scan. -/
theorem unknown_field_counterexample :
    (("foo", "1") ∈ ([("foo", "1")] : Params) ∧
      ("foo" : String) ∉ unifiedMustParam ∧
      ("foo" : String) ∉ unifiedOptionalParam) ∧
    (UnifiedOrder idHash testPayer (some [("foo", "1")])
        (.error "x")).1 = .error .errTradeType ∧
    ∀ k, WxErr.errTradeType ≠ WxErr.noNeedParam k :=
  ⟨⟨by decide, by decide, by decide⟩, by decide,
   fun _ h => WxErr.noConfusion h⟩

/-- C7 (amended): once the earlier gates pass (configured payer, `trade_type`
present, JSAPI/openid rule satisfied, all required fields present), the
allow-list check fails with `no need <k>` for the first scanned key outside
both the required and optional lists — and then nothing is sent, the result
being independent of the transport oracle — while a map whose every key is in
one of the two lists passes the check. -/
theorem unknown_field_check (h : HashImpl) (m : Payer) (p : Params)
    (t : Except String unifiedResult) (tt : String)
    (hcf : checkForPay m = .ok ())
    (htt : Params.get? (injected m p) "trade_type" = some tt)
    (hjs : ¬(tt = "JSAPI" ∧ Params.get? (injected m p) "openid" = none))
    (hreq : firstMissingRequired (injected m p) = none) :
    (∀ k, firstUnknown (injected m p) = some k →
        (UnifiedOrder h m (some p) t).1 = .error (.noNeedParam k) ∧
        k ∉ unifiedMustParam ∧ k ∉ unifiedOptionalParam ∧
        ∀ t', UnifiedOrder h m (some p) t = UnifiedOrder h m (some p) t') ∧
    (firstUnknown (injected m p) = none ↔
        ∀ kv ∈ injected m p,
          kv.1 ∈ unifiedMustParam ∨ kv.1 ∈ unifiedOptionalParam) ∧
    (firstUnknown (injected m p) = none →
        ∀ k, (UnifiedOrder h m (some p) t).1 ≠ .error (.noNeedParam k)) := by
  refine ⟨?_, ?_, ?_⟩
  · intro k hk
    have hcompute : ∀ t'' : Except String unifiedResult,
        UnifiedOrder h m (some p) t'' =
          (.error (.noNeedParam k), some (injected m p)) := by
      intro t''
      simp only [UnifiedOrder, hcf, validateAndSend, htt]
      rw [if_neg hjs, hreq]
      simp [hk]
    have hpred := List.find?_some hk
    rw [Bool.and_eq_true] at hpred
    refine ⟨by rw [hcompute t], ?_, ?_,
      fun t' => (hcompute t).trans (hcompute t').symm⟩
    · simpa using hpred.1
    · simpa using hpred.2
  · unfold firstUnknown
    rw [List.find?_eq_none]
    constructor
    · intro hall kv hkv
      have hx := hall kv.1 (List.mem_map_of_mem _ hkv)
      by_cases h1 : kv.1 ∈ unifiedMustParam
      · exact .inl h1
      · refine .inr ?_
        by_contra h2
        apply hx
        rw [Bool.and_eq_true]
        exact ⟨by simpa using h1, by simpa using h2⟩
    · intro hall x hx
      rcases List.mem_map.mp hx with ⟨kv, hkv, rfl⟩
      intro hcontra
      rw [Bool.and_eq_true] at hcontra
      rcases hall kv hkv with h1 | h1
      · exact absurd h1 (by simpa using hcontra.1)
      · exact absurd h1 (by simpa using hcontra.2)
  · intro hnone k
    simp only [UnifiedOrder, hcf, validateAndSend, htt]
    rw [if_neg hjs, hreq, hnone]
    intro hcontra
    rcases signAndSend_error_shapes hcontra with
      h1 | ⟨msg, h1⟩ | ⟨msg, h1⟩ | ⟨msg, h1⟩ | h1 <;>
      exact WxErr.noConfusion h1

/-- Witness for C7 (amended): adding the unknown key `foo` to an otherwise
valid request fails naming `foo`, independently of the transport. -/
theorem unknown_field_check_witness :
    (checkForPay testPayer = .ok () ∧
      Params.get? (injected testPayer (validOrderParams ++ [("foo", "1")]))
        "trade_type" = some "NATIVE" ∧
      ¬(("NATIVE" : String) = "JSAPI" ∧
        Params.get? (injected testPayer
          (validOrderParams ++ [("foo", "1")])) "openid" = none) ∧
      firstMissingRequired (injected testPayer
        (validOrderParams ++ [("foo", "1")])) = none ∧
      firstUnknown (injected testPayer
        (validOrderParams ++ [("foo", "1")])) = some "foo") ∧
    ((UnifiedOrder idHash testPayer
        (some (validOrderParams ++ [("foo", "1")])) (.error "x")).1 =
          .error (.noNeedParam "foo") ∧
      ("foo" : String) ∉ unifiedMustParam ∧
      ("foo" : String) ∉ unifiedOptionalParam ∧
      ∀ t', UnifiedOrder idHash testPayer
          (some (validOrderParams ++ [("foo", "1")])) (.error "x") =
        UnifiedOrder idHash testPayer
          (some (validOrderParams ++ [("foo", "1")])) t') :=
  ⟨⟨by decide, by decide, by decide, by decide, by decide⟩,
   (unknown_field_check idHash testPayer (validOrderParams ++ [("foo", "1")])
      (.error "x") "NATIVE" (by decide) (by decide) (by decide)
      (by decide)).1 "foo" (by decide)⟩

/-! ### Claim C9 -/

/-- C9: for every non-nil params set and configured payer, the caller's map
(as returned in the builder's final state) carries `appid` and `mch_id` taken
from the credentials — overwriting any caller-supplied values — in every
outcome, including every validation failure after the configuration check;
and no other caller-supplied entry is modified except the added `sign`. -/
theorem injection_frame (h : HashImpl) (m : Payer) (p : Params)
    (t : Except String unifiedResult) (hcf : checkForPay m = .ok ()) :
    ∃ p', (UnifiedOrder h m (some p) t).2 = some p' ∧
      Params.get? p' "appid" = some m.appId ∧
      Params.get? p' "mch_id" = some m.mchId ∧
      ∀ k, k ≠ "appid" → k ≠ "mch_id" → k ≠ "sign" →
        Params.get? p' k = Params.get? p k := by
  have hshape : (UnifiedOrder h m (some p) t).2 = some (injected m p) ∨
      ∃ sig, (UnifiedOrder h m (some p) t).2 =
        some ((injected m p).add "sign" sig) := by
    simp only [UnifiedOrder, hcf]
    cases hg : Params.get? (injected m p) "trade_type" with
    | none => left; simp [validateAndSend, hg]
    | some tt =>
      simp only [validateAndSend, hg]
      by_cases hj : tt = "JSAPI" ∧ Params.get? (injected m p) "openid" = none
      · rw [if_pos hj]
        left
        rfl
      · rw [if_neg hj]
        cases hr : firstMissingRequired (injected m p) with
        | some v => left; rfl
        | none =>
          cases hu : firstUnknown (injected m p) with
          | some k => left; rfl
          | none =>
            exact signAndSend_snd h m (injected m p)
              (effectiveSignType (injected m p)) t
  have happ : Params.get? (injected m p) "appid" = some m.appId :=
    get?_injected_appid m p
  have hmch : Params.get? (injected m p) "mch_id" = some m.mchId :=
    get?_injected_mchid m p
  have hframe : ∀ k, k ≠ "appid" → k ≠ "mch_id" →
      Params.get? (injected m p) k = Params.get? p k :=
    fun k h1 h2 => get?_injected_ne m p k h1 h2
  rcases hshape with hs | ⟨sig, hs⟩
  · exact ⟨injected m p, hs, happ, hmch,
      fun k h1 h2 _ => hframe k h1 h2⟩
  · refine ⟨(injected m p).add "sign" sig, hs, ?_, ?_, ?_⟩
    · rw [get?_add_ne _ _ (by decide : ("appid" : String) ≠ "sign")]
      exact happ
    · rw [get?_add_ne _ _ (by decide : ("mch_id" : String) ≠ "sign")]
      exact hmch
    · intro k h1 h2 h3
      rw [get?_add_ne _ _ h3]
      exact hframe k h1 h2

/-- Witness for C9: the injected identifiers and the frame condition on a
request that also carries caller-supplied `appid` and `mch_id` values. -/
theorem injection_frame_witness :
    checkForPay testPayer = .ok () ∧
    ∃ p', (UnifiedOrder idHash testPayer
        (some (("appid", "other") :: validOrderParams)) (.error "x")).2 =
          some p' ∧
      Params.get? p' "appid" = some testPayer.appId ∧
      Params.get? p' "mch_id" = some testPayer.mchId ∧
      ∀ k, k ≠ "appid" → k ≠ "mch_id" → k ≠ "sign" →
        Params.get? p' k =
          Params.get? (("appid", "other") :: validOrderParams) k :=
  ⟨by decide, injection_frame idHash testPayer
    (("appid", "other") :: validOrderParams) (.error "x") (by decide)⟩

end WechatSDK
